import Mathlib

/-!
Verification of the fund_manager position-accounting core (src/app.py).

Shallow embedding conventions:
* Python floats are modelled as rationals (`ℚ`).
* The `holdings` SQL table, keyed by `(user_id, code)` with a uniqueness
  constraint on the pair, is modelled as a function
  `Store : Nat → String → Option Holding`.
* The Flask session is modelled as `Option Nat` (the stored `user_id`,
  `none` when no user is logged in).
* The external quote feed `fetch_realtime` is a parameter
  `String → Option Quote`; `fetch_history` is a parameter
  `String → List HistEntry`.
* Each route handler becomes a pure function from its inputs and the store
  to a result value and the updated store; the distinct JSON error responses
  of the handler become constructors of a result type.
* Python's `round(x, 2)` is modelled as rounding to the nearest multiple of
  1/100 (`round2`); none of the inputs used in counterexamples sit on a
  rounding tie, so the tie-breaking convention is irrelevant.
-/

namespace FundManager

/-- One row of the `holdings` table (minus the key columns):
`buy_price REAL`, `amount REAL` (src/app.py lines 56-65). -/
structure Holding where
  buy_price : ℚ
  amount : ℚ
deriving DecidableEq, Repr

/-- The parsed result of `fetch_realtime`: display name `name`, current
indicative price `gsz`, today's percentage change `gszzl`. -/
structure Quote where
  name : String
  gsz : ℚ
  gszzl : ℚ
deriving DecidableEq, Repr

/-- The `holdings` table: at most one `Holding` per `(user_id, code)` pair. -/
def Store : Type := Nat → String → Option Holding

/-- Write (or delete, with `none`) the row keyed by `(u, c)`. -/
def Store.set (s : Store) (u : Nat) (c : String) (v : Option Holding) : Store :=
  fun u' c' => if u' = u ∧ c' = c then v else s u' c'

/-- The empty `holdings` table. -/
def emptyStore : Store := fun _ _ => none

/-- `current_user` (src/app.py lines 136-141): returns the session's
`user_id` when it is truthy (`if user_id:` — a stored id of 0 counts as
no identity under Python truthiness). -/
def current_user (sess : Option Nat) : Option Nat :=
  match sess with
  | none => none
  | some user_id => if user_id ≠ 0 then some user_id else none

/-- `round(x, 2)`: round to the nearest multiple of 1/100. -/
def round2 (x : ℚ) : ℚ := (round (x * 100) : ℤ) / 100

/-- Python's `str.strip()`: drop leading and trailing whitespace. -/
def pyStrip (s : String) : String :=
  ⟨((s.data.dropWhile Char.isWhitespace).reverse.dropWhile Char.isWhitespace).reverse⟩

/-- The distinct responses of the `/add` handler (src/app.py lines 168-211). -/
inductive AddResult where
  | notLoggedIn
  | emptyCode
  | nonPositive
  | invalidFund
  | duplicate
  | ok (name : String)
deriving DecidableEq, Repr

/-- The `/add` route handler (src/app.py lines 168-211): open a position.
Validates identity, a nonempty (stripped) code, positive price and amount,
fund existence via the quote feed, and uniqueness of `(user_id, code)`;
on success inserts `Holding { buy_price, amount }`. -/
def add (sess : Option Nat) (code : String) (buy_price amount : ℚ)
    (fetch : String → Option Quote) (s : Store) : AddResult × Store :=
  match current_user sess with
  | none => (.notLoggedIn, s)
  | some user_id =>
    let code := pyStrip code
    if code = "" then (.emptyCode, s)
    else if buy_price ≤ 0 ∨ amount ≤ 0 then (.nonPositive, s)
    else
      match fetch code with
      | none => (.invalidFund, s)
      | some realtime =>
        match s user_id code with
        | some _ => (.duplicate, s)
        | none =>
          (.ok realtime.name, s.set user_id code (some ⟨buy_price, amount⟩))

/-- The distinct responses of the `/update/<code>` handler. -/
inductive UpdateResult where
  | notLoggedIn
  | notFound
  | ok (new_amount : ℚ) (buy_price : ℚ)
deriving DecidableEq, Repr

/-- The `/update/<code>` route handler (src/app.py lines 215-256): adjust a
position by a signed `delta` with an incremental price `add_price`.
The handler performs no validation of `delta` or `add_price`.
If `new_amount ≤ 0` the row is deleted and the response reports amount 0
with the old average cost; otherwise a `delta > 0` recomputes the weighted
average cost from the pre-update row and the caller-supplied `add_price`
(the current market quote is never consulted), and a `delta ≤ 0` keeps the
old cost. -/
def update_position (sess : Option Nat) (code : String) (delta add_price : ℚ)
    (s : Store) : UpdateResult × Store :=
  match current_user sess with
  | none => (.notLoggedIn, s)
  | some user_id =>
    match s user_id code with
    | none => (.notFound, s)
    | some row =>
      let old_amount := row.amount
      let old_price := row.buy_price
      let new_amount := old_amount + delta
      if new_amount ≤ 0 then
        (.ok 0 old_price, s.set user_id code none)
      else
        let avg_price :=
          if 0 < delta then
            (old_price * old_amount + add_price * delta) / new_amount
          else old_price
        (.ok new_amount avg_price, s.set user_id code (some ⟨avg_price, new_amount⟩))

/-- The distinct responses of the `/delete/<code>` handler. -/
inductive DeleteResult where
  | notLoggedIn
  | deleted
deriving DecidableEq, Repr

/-- The `/delete/<code>` route handler (src/app.py lines 259-270): close a
position. Deletes the row if present; absence is not an error. -/
def delete (sess : Option Nat) (code : String) (s : Store) : DeleteResult × Store :=
  match current_user sess with
  | none => (.notLoggedIn, s)
  | some user_id => (.deleted, s.set user_id code none)

/-- One row of the `SELECT code, buy_price, amount` result that the
`/holdings` handler iterates over (src/app.py line 280). -/
structure HRow where
  code : String
  buy_price : ℚ
  amount : ℚ
deriving DecidableEq, Repr

/-- One element of the `funds` list in the `/holdings` response
(src/app.py lines 304-315). -/
structure FundView where
  code : String
  name : String
  current : ℚ
  buy_price : ℚ
  amount : ℚ
  profit : ℚ
  percent : ℚ
  holding : ℚ
  gszzl : ℚ
  today_profit : ℚ
deriving DecidableEq, Repr

/-- The aggregate part of the `/holdings` response (src/app.py lines 317-323). -/
structure HoldingsOut where
  funds : List FundView
  total_asset : ℚ
  total_profit : ℚ
  total_percent : ℚ
  today_profit : ℚ
deriving DecidableEq, Repr

/-- One iteration of the `for code, buy_price, amount in rows:` loop of the
`/holdings` handler (src/app.py lines 289-315): a row whose quote lookup
fails is skipped (`if not realtime: continue`); otherwise its view is
appended and the running totals are increased. `today_profit` is rounded
to 2 decimals here, before it enters the running total. -/
def holdingsStep (fetch : String → Option Quote)
    (acc : List FundView × ℚ × ℚ × ℚ) (r : HRow) : List FundView × ℚ × ℚ × ℚ :=
  match fetch r.code with
  | none => acc
  | some realtime =>
    let (funds, total_asset, total_cost, total_today_profit) := acc
    let current := realtime.gsz
    let gszzl := realtime.gszzl
    let asset := current * r.amount
    let cost := r.buy_price * r.amount
    let profit := asset - cost
    let today_profit := round2 (asset * gszzl / 100)
    (funds ++ [{ code := r.code, name := realtime.name, current := current,
                 buy_price := r.buy_price, amount := r.amount,
                 profit := round2 profit,
                 percent := if 0 < cost then round2 (profit / cost * 100) else 0,
                 holding := round2 asset, gszzl := gszzl,
                 today_profit := today_profit }],
     total_asset + asset, total_cost + cost, total_today_profit + today_profit)

/-- The valuation computation of the `/holdings` handler on the rows of one
user (src/app.py lines 284-323): run the loop from empty accumulators and
round the aggregate totals for the response. -/
def holdingsCalc (fetch : String → Option Quote) (rows : List HRow) : HoldingsOut :=
  let res := rows.foldl (holdingsStep fetch) ([], 0, 0, 0)
  let funds := res.1
  let total_asset := res.2.1
  let total_cost := res.2.2.1
  let total_today_profit := res.2.2.2
  { funds := funds,
    total_asset := round2 total_asset,
    total_profit := round2 (total_asset - total_cost),
    total_percent := if 0 < total_cost
      then round2 ((total_asset - total_cost) / total_cost * 100) else 0,
    today_profit := round2 total_today_profit }

/-- The distinct responses of the `/holdings` handler. -/
inductive HoldingsResult where
  | notLoggedIn
  | ok (out : HoldingsOut)
deriving DecidableEq, Repr

/-- The `/holdings` route handler (src/app.py lines 273-323): valuation of a
user's portfolio. `rowsOf` models the `SELECT ... WHERE user_id=%s` query. -/
def holdings (sess : Option Nat) (rowsOf : Nat → List HRow)
    (fetch : String → Option Quote) : HoldingsResult :=
  match current_user sess with
  | none => .notLoggedIn
  | some user_id => .ok (holdingsCalc fetch (rowsOf user_id))

/-- One `(date, value)` pair of a fund's net-worth history, dates counted in
days (the code formats them as calendar strings; only their order matters). -/
structure HistEntry where
  date : ℤ
  value : ℚ
deriving DecidableEq, Repr

/-- The period-to-cutoff table of the `/history/<code>/<period>` handler
(src/app.py lines 332-335): 1m → 30 days, 3m → 90, 6m → 180, anything
else → 365. -/
def periodDays (period : String) : ℤ :=
  if period = "1m" then 30
  else if period = "3m" then 90
  else if period = "6m" then 180
  else 365

/-- The responses of the `/history/<code>/<period>` handler, using the same
response vocabulary as the other routes. The handler body never consults
the session, so the `notLoggedIn` variant is never produced. -/
inductive HistoryResult where
  | notLoggedIn
  | ok (entries : List HistEntry)
deriving DecidableEq, Repr

/-- The `/history/<code>/<period>` route handler (src/app.py lines 326-338):
fetch the full history and keep the entries with date ≥ today − period.
Unlike every other route, it performs no `current_user` check: the `sess`
argument is ignored by the body, exactly as the handler ignores the
session. -/
def history (_sess : Option Nat) (code period : String)
    (fetchHist : String → List HistEntry) (today : ℤ) : HistoryResult :=
  let data := fetchHist code
  if data = [] then .ok []
  else .ok (data.filter fun d => today - periodDays period ≤ d.date)

/-! ### Derived per-row views of the valuation loop

These repackage what one iteration of the `/holdings` loop contributes, so
that the aggregate totals can be stated as sums over the rows. -/

/-- The `FundView` one row contributes to the `funds` list, `none` when its
quote lookup fails (the `continue` branch of the loop). -/
def mkFund (fetch : String → Option Quote) (r : HRow) : Option FundView :=
  match fetch r.code with
  | none => none
  | some realtime =>
    let current := realtime.gsz
    let gszzl := realtime.gszzl
    let asset := current * r.amount
    let cost := r.buy_price * r.amount
    let profit := asset - cost
    let today_profit := round2 (asset * gszzl / 100)
    some { code := r.code, name := realtime.name, current := current,
           buy_price := r.buy_price, amount := r.amount,
           profit := round2 profit,
           percent := if 0 < cost then round2 (profit / cost * 100) else 0,
           holding := round2 asset, gszzl := gszzl,
           today_profit := today_profit }

/-- The market value (`asset`) a row adds to `total_asset`; 0 when the row is
skipped. -/
def rowAsset (fetch : String → Option Quote) (r : HRow) : ℚ :=
  match fetch r.code with
  | none => 0
  | some realtime => realtime.gsz * r.amount

/-- The cost value (`cost`) a row adds to `total_cost`; 0 when the row is
skipped. -/
def rowCost (fetch : String → Option Quote) (r : HRow) : ℚ :=
  match fetch r.code with
  | none => 0
  | some _ => r.buy_price * r.amount

/-- The (already 2-decimal-rounded) `today_profit` a row adds to
`total_today_profit`; 0 when the row is skipped. -/
def rowToday (fetch : String → Option Quote) (r : HRow) : ℚ :=
  match fetch r.code with
  | none => 0
  | some realtime => round2 (realtime.gsz * r.amount * realtime.gszzl / 100)

/-- The exact, unrounded today's P&L of a row: `market_value * day_change_pct
/ 100`; 0 when the row is skipped. This is the quantity the specification
says the portfolio total is the sum of. -/
def rowTodayExact (fetch : String → Option Quote) (r : HRow) : ℚ :=
  match fetch r.code with
  | none => 0
  | some realtime => realtime.gsz * r.amount * realtime.gszzl / 100

/-- The rows whose quote lookup succeeds: exactly the holdings the valuation
includes. -/
def included (fetch : String → Option Quote) (rows : List HRow) : List HRow :=
  rows.filter fun r => (fetch r.code).isSome

/-- The data-model invariant claimed by the specification: every persisted
`Holding` has positive quantity and positive average cost. -/
def StoreInv (s : Store) : Prop :=
  ∀ u c h, s u c = some h → 0 < h.amount ∧ 0 < h.buy_price

/-- The quantity half of the invariant alone: every persisted `Holding` has
positive quantity. -/
def StoreQuantInv (s : Store) : Prop :=
  ∀ u c h, s u c = some h → 0 < h.amount

/-! ### Store helper lemmas -/

theorem Store.set_self (s : Store) (u : Nat) (c : String) (v : Option Holding) :
    (s.set u c v) u c = v := by
  simp [Store.set]

theorem Store.set_other (s : Store) (u : Nat) (c : String) (v : Option Holding)
    (u' : Nat) (c' : String) (h : ¬(u' = u ∧ c' = c)) :
    (s.set u c v) u' c' = s u' c' := by
  simp only [Store.set, if_neg h]

/-! ### The valuation loop as sums over the rows -/

/-- Unrolling the `/holdings` loop: starting from accumulators
`(fs, a, c, t)`, the loop appends the views of the quoted rows and adds the
per-row contributions to the three running totals. -/
theorem holdings_foldl (fetch : String → Option Quote) (rows : List HRow) :
    ∀ fs a c t, rows.foldl (holdingsStep fetch) (fs, a, c, t) =
      (fs ++ rows.filterMap (mkFund fetch),
       a + (rows.map (rowAsset fetch)).sum,
       c + (rows.map (rowCost fetch)).sum,
       t + (rows.map (rowToday fetch)).sum) := by
  induction rows with
  | nil => intro fs a c t; simp
  | cons r rs ih =>
    intro fs a c t
    simp only [List.foldl_cons, List.filterMap_cons, List.map_cons, List.sum_cons]
    cases h : fetch r.code with
    | none =>
      simp [holdingsStep, h, mkFund, rowAsset, rowCost, rowToday, ih]
    | some rt =>
      simp only [holdingsStep, h, mkFund, rowAsset, rowCost, rowToday, ih,
        List.append_assoc, List.singleton_append, Prod.mk.injEq]
      refine ⟨trivial, by ring, by ring, by ring⟩

/-- A per-row function that vanishes on quote-less rows sums the same over
all rows as over the included rows. -/
theorem sum_map_included (fetch : String → Option Quote) (f : HRow → ℚ)
    (hz : ∀ r, fetch r.code = none → f r = 0) (rows : List HRow) :
    ((included fetch rows).map f).sum = (rows.map f).sum := by
  induction rows with
  | nil => rfl
  | cons r rs ih =>
    simp only [included, List.filter_cons] at *
    cases h : fetch r.code with
    | none => simp [h, hz r h, ih]
    | some rt => simp [h, ih]

/-! ### Concrete stores and feeds used by witnesses and counterexamples -/

/-- A store holding one position: user 1 holds fund "000001" with average
cost 2 over 100 units. -/
def demoStore : Store :=
  fun u c => if u = 1 ∧ c = "000001" then some ⟨2, 100⟩ else none

/-- A store holding one position: user 1 holds fund "000001" with average
cost 7/3 over 150 units. -/
def demoStore2 : Store :=
  fun u c => if u = 1 ∧ c = "000001" then some ⟨7/3, 150⟩ else none

/-- A quote feed that resolves only the fund code "f1". -/
def oneFundFeed : String → Option Quote :=
  fun c => if c = "f1" then some ⟨"n", 1, 0⟩ else none

/-- A store in which the cost half of the invariant is already broken
(user 1 holds 2 units of "f1" at the negative average cost -9/2, a state
`negative_cost_reachable` shows the operations can produce) while the
quantity half still holds. -/
def badStore : Store :=
  fun u c => if u = 1 ∧ c = "f1" then some ⟨-9/2, 2⟩ else none

/-! ### C1 -/

/-- Claim C1: on an existing holding with quantity q1 > 0 and average cost
p1 > 0, an adjust with delta > 0 and incremental price p2 yields quantity
q1 + delta and average cost (p1*q1 + p2*delta)/(q1+delta), computed from the
pre-update row and the caller-supplied price (`update_position` never takes
a market quote). -/
theorem adjust_add_units_weighted_average (uid : Nat) (code : String)
    (p1 q1 delta p2 : ℚ) (s : Store) (hu : uid ≠ 0)
    (hrow : s uid code = some ⟨p1, q1⟩) (hq : 0 < q1) (hp : 0 < p1)
    (hd : 0 < delta) (hnew : 0 < q1 + delta) :
    update_position (some uid) code delta p2 s =
      (.ok (q1 + delta) ((p1 * q1 + p2 * delta) / (q1 + delta)),
       s.set uid code (some ⟨(p1 * q1 + p2 * delta) / (q1 + delta), q1 + delta⟩)) := by
  simp [update_position, current_user, hu, hrow, not_le.mpr hnew, hd]

/-- Witness for C1 at the specification's example: q1 = 100, p1 = 2,
delta = 50, p2 = 3. -/
theorem adjust_add_units_weighted_average_witness :
    update_position (some 1) "000001" 50 3 demoStore =
      (.ok (100 + 50) ((2 * 100 + 3 * 50) / (100 + 50)),
       demoStore.set 1 "000001" (some ⟨(2 * 100 + 3 * 50) / (100 + 50), 100 + 50⟩)) :=
  adjust_add_units_weighted_average 1 "000001" 2 100 50 3 demoStore
    (by norm_num) rfl (by norm_num) (by norm_num) (by norm_num) (by norm_num)

/-! ### C6 -/

/-- Claim C6: an adjust whose delta drives the quantity to 0 or below deletes
the holding, reports new quantity 0 with the last average cost unchanged,
and a subsequent adjust on the same (user, code) key fails with the
not-found error. -/
theorem adjust_to_zero_deletes (uid : Nat) (code : String) (p1 q1 delta p2 : ℚ)
    (s : Store) (hu : uid ≠ 0) (hrow : s uid code = some ⟨p1, q1⟩)
    (hz : q1 + delta ≤ 0) :
    update_position (some uid) code delta p2 s = (.ok 0 p1, s.set uid code none) ∧
    ∀ delta2 p2b, update_position (some uid) code delta2 p2b (s.set uid code none) =
      (.notFound, s.set uid code none) := by
  constructor
  · simp [update_position, current_user, hu, hrow, hz]
  · intro delta2 p2b
    simp [update_position, current_user, hu, Store.set_self]

/-- Witness for C6: closing the 100-unit demo position with delta = -100,
then adjusting the same key again. -/
theorem adjust_to_zero_deletes_witness :
    update_position (some 1) "000001" (-100) 0 demoStore =
      (.ok 0 2, demoStore.set 1 "000001" none) ∧
    update_position (some 1) "000001" 5 1 (demoStore.set 1 "000001" none) =
      (.notFound, demoStore.set 1 "000001" none) :=
  ⟨(adjust_to_zero_deletes 1 "000001" 2 100 (-100) 0 demoStore
      (by norm_num) rfl (by norm_num)).1,
   (adjust_to_zero_deletes 1 "000001" 2 100 (-100) 0 demoStore
      (by norm_num) rfl (by norm_num)).2 5 1⟩

/-! ### C7 -/

/-- Claim C7: an adjust with delta ≤ 0 that leaves the quantity positive
keeps the stored average cost unchanged, only decreases the quantity by
|delta|, and touches no other row of the store. -/
theorem adjust_reduce_keeps_cost (uid : Nat) (code : String) (p1 q1 delta p2 : ℚ)
    (s : Store) (hu : uid ≠ 0) (hrow : s uid code = some ⟨p1, q1⟩)
    (hd : delta ≤ 0) (hpos : 0 < q1 + delta) :
    update_position (some uid) code delta p2 s =
      (.ok (q1 + delta) p1, s.set uid code (some ⟨p1, q1 + delta⟩)) ∧
    ∀ u2 c2, ¬(u2 = uid ∧ c2 = code) →
      (update_position (some uid) code delta p2 s).2 u2 c2 = s u2 c2 := by
  have hmain : update_position (some uid) code delta p2 s =
      (.ok (q1 + delta) p1, s.set uid code (some ⟨p1, q1 + delta⟩)) := by
    simp [update_position, current_user, hu, hrow, not_le.mpr hpos, not_lt.mpr hd]
  refine ⟨hmain, fun u2 c2 hne => ?_⟩
  rw [hmain]
  exact Store.set_other s uid code _ u2 c2 hne

/-- Witness for C7 at the specification's example: reducing the 150-unit
position at average cost 7/3 by 50 units; the untouched-row part is
instanced at the row of user 2. -/
theorem adjust_reduce_keeps_cost_witness :
    update_position (some 1) "000001" (-50) 0 demoStore2 =
      (.ok (150 + -50) (7/3), demoStore2.set 1 "000001" (some ⟨7/3, 150 + -50⟩)) ∧
    (update_position (some 1) "000001" (-50) 0 demoStore2).2 2 "000001" =
      demoStore2 2 "000001" :=
  ⟨(adjust_reduce_keeps_cost 1 "000001" (7/3) 150 (-50) 0 demoStore2
      (by norm_num) rfl (by norm_num) (by norm_num)).1,
   (adjust_reduce_keeps_cost 1 "000001" (7/3) 150 (-50) 0 demoStore2
      (by norm_num) rfl (by norm_num) (by norm_num)).2 2 "000001" (by norm_num)⟩

/-! ### C8 -/

/-- Claim C8: opening a position with valid inputs (positive price and
amount, resolvable fund code, no existing row) creates
Holding{quantity = amount, average_cost = price}; opening a second time for
the same (user, code) fails with the duplicate error and leaves the first
holding and the whole store unchanged. -/
theorem open_then_duplicate (uid : Nat) (code : String) (p q p2 q2 : ℚ)
    (rt : Quote) (fetch : String → Option Quote) (s : Store) (hu : uid ≠ 0)
    (hcode : pyStrip code ≠ "") (hp : 0 < p) (hq : 0 < q)
    (hp2 : 0 < p2) (hq2 : 0 < q2) (hfetch : fetch (pyStrip code) = some rt)
    (hnone : s uid (pyStrip code) = none) :
    add (some uid) code p q fetch s =
      (.ok rt.name, s.set uid (pyStrip code) (some ⟨p, q⟩)) ∧
    (s.set uid (pyStrip code) (some ⟨p, q⟩)) uid (pyStrip code) = some ⟨p, q⟩ ∧
    add (some uid) code p2 q2 fetch (s.set uid (pyStrip code) (some ⟨p, q⟩)) =
      (.duplicate, s.set uid (pyStrip code) (some ⟨p, q⟩)) := by
  refine ⟨?_, Store.set_self s uid (pyStrip code) _, ?_⟩
  · simp [add, current_user, hu, hcode, hfetch, hnone, not_le.mpr hp, not_le.mpr hq]
  · simp [add, current_user, hu, hcode, hfetch, Store.set_self,
      not_le.mpr hp2, not_le.mpr hq2]

/-- Witness for C8: user 1 opens fund "f1" at price 1 for 1 unit on the
empty store, then tries to open it again. -/
theorem open_then_duplicate_witness :
    add (some 1) "f1" 1 1 oneFundFeed emptyStore =
      (.ok (Quote.mk "n" 1 0).name,
       emptyStore.set 1 (pyStrip "f1") (some ⟨1, 1⟩)) ∧
    (emptyStore.set 1 (pyStrip "f1") (some ⟨1, 1⟩)) 1 (pyStrip "f1") = some ⟨1, 1⟩ ∧
    add (some 1) "f1" 2 3 oneFundFeed (emptyStore.set 1 (pyStrip "f1") (some ⟨1, 1⟩)) =
      (.duplicate, emptyStore.set 1 (pyStrip "f1") (some ⟨1, 1⟩)) :=
  open_then_duplicate 1 "f1" 1 1 2 3 ⟨"n", 1, 0⟩ oneFundFeed emptyStore
    (by norm_num) (by decide) (by norm_num) (by norm_num) (by norm_num) (by norm_num)
    rfl rfl

/-! ### C10 -/

/-- Claim C10: every ledger mutation (open, adjust, close) reads and writes
only the row keyed by the requesting user and the requested fund code; every
row of any other user, and every row of the same user under a different
code, is left unchanged. For open the key uses the stripped code. -/
theorem mutation_frame (sess : Option Nat) (uid : Nat) (code : String)
    (bp amt delta ap : ℚ) (fetch : String → Option Quote) (s : Store)
    (u2 : Nat) (c2 : String) (hu : current_user sess = some uid) :
    (¬(u2 = uid ∧ c2 = pyStrip code) →
      (add sess code bp amt fetch s).2 u2 c2 = s u2 c2) ∧
    (¬(u2 = uid ∧ c2 = code) →
      (update_position sess code delta ap s).2 u2 c2 = s u2 c2) ∧
    (¬(u2 = uid ∧ c2 = code) →
      (delete sess code s).2 u2 c2 = s u2 c2) := by
  refine ⟨fun hne => ?_, fun hne => ?_, fun hne => ?_⟩
  · simp only [add, hu]
    split
    · rfl
    · split
      · rfl
      · split
        · rfl
        · split
          · rfl
          · exact Store.set_other s uid (pyStrip code) _ u2 c2 hne
  · simp only [update_position, hu]
    split
    · rfl
    · split
      · exact Store.set_other s uid code _ u2 c2 hne
      · exact Store.set_other s uid code _ u2 c2 hne
  · simp only [delete, hu]
    exact Store.set_other s uid code _ u2 c2 hne

/-- Witness for C10: user 1 mutates fund "f1"; the row of user 2 under the
same code is untouched by all three operations. -/
theorem mutation_frame_witness :
    ((add (some 1) "f1" 1 1 oneFundFeed demoStore).2 2 "f1" = demoStore 2 "f1") ∧
    ((update_position (some 1) "f1" 5 1 demoStore).2 2 "f1" = demoStore 2 "f1") ∧
    ((delete (some 1) "f1" demoStore).2 2 "f1" = demoStore 2 "f1") :=
  ⟨(mutation_frame (some 1) 1 "f1" 1 1 5 1 oneFundFeed demoStore 2 "f1"
      (by norm_num [current_user])).1 (by norm_num),
   (mutation_frame (some 1) 1 "f1" 1 1 5 1 oneFundFeed demoStore 2 "f1"
      (by norm_num [current_user])).2.1 (by norm_num),
   (mutation_frame (some 1) 1 "f1" 1 1 5 1 oneFundFeed demoStore 2 "f1"
      (by norm_num [current_user])).2.2 (by norm_num)⟩

/-! ### C4 -/

/-- Amended claim C4: with no resolved user identity the open, adjust, close
and list/valuation operations refuse with the authorization error and leave
the store untouched — but not the historical series filter, which performs
no identity check (see the counterexample `history_serves_without_identity`). -/
theorem no_identity_refusal (sess : Option Nat)
    (h : current_user sess = none) :
    (∀ code bp amt fetch s, add sess code bp amt fetch s = (.notLoggedIn, s)) ∧
    (∀ code delta ap s, update_position sess code delta ap s = (.notLoggedIn, s)) ∧
    (∀ code s, delete sess code s = (.notLoggedIn, s)) ∧
    (∀ rowsOf fetch, holdings sess rowsOf fetch = .notLoggedIn) := by
  refine ⟨fun code bp amt fetch s => ?_, fun code delta ap s => ?_,
    fun code s => ?_, fun rowsOf fetch => ?_⟩
  · simp only [add, h]
  · simp only [update_position, h]
  · simp only [delete, h]
  · simp only [holdings, h]

/-- Witness for C4 (amended): the four refusals at an empty session. -/
theorem no_identity_refusal_witness :
    add none "f1" 1 1 oneFundFeed emptyStore = (.notLoggedIn, emptyStore) ∧
    update_position none "f1" 1 1 emptyStore = (.notLoggedIn, emptyStore) ∧
    delete none "f1" emptyStore = (.notLoggedIn, emptyStore) ∧
    holdings none (fun _ => []) oneFundFeed = .notLoggedIn :=
  ⟨(no_identity_refusal none rfl).1 "f1" 1 1 oneFundFeed emptyStore,
   (no_identity_refusal none rfl).2.1 "f1" 1 1 emptyStore,
   (no_identity_refusal none rfl).2.2.1 "f1" emptyStore,
   (no_identity_refusal none rfl).2.2.2 (fun _ => []) oneFundFeed⟩

/-- Counterexample to C4 as stated: the historical series filter, invoked
with no identity at all, does not refuse — it fetches the history and
returns the filtered data. -/
theorem history_serves_without_identity :
    history none "x" "1m" (fun _ => [⟨990, 1⟩, ⟨100, 2⟩]) 1000 = .ok [⟨990, 1⟩] ∧
    history none "x" "1m" (fun _ => [⟨990, 1⟩, ⟨100, 2⟩]) 1000 ≠ .notLoggedIn := by
  have h : history none "x" "1m" (fun _ => [⟨990, 1⟩, ⟨100, 2⟩]) 1000 = .ok [⟨990, 1⟩] := by
    norm_num [history, periodDays]
    simp
  exact ⟨h, by rw [h]; simp⟩

/-! ### C3 -/

/-- Setting one row preserves the invariant when the written value (if any)
satisfies it. -/
theorem StoreInv_set {s : Store} (hs : StoreInv s) (u : Nat) (c : String)
    {v : Option Holding} (hv : ∀ h, v = some h → 0 < h.amount ∧ 0 < h.buy_price) :
    StoreInv (s.set u c v) := by
  intro u2 c2 h hl
  by_cases hc : u2 = u ∧ c2 = c
  · simp only [Store.set, if_pos hc] at hl
    exact hv _ hl
  · rw [Store.set_other _ _ _ _ _ _ hc] at hl
    exact hs _ _ _ hl

/-- Setting one row preserves the quantity invariant when the written value
(if any) satisfies it. -/
theorem StoreQuantInv_set {s : Store} (hs : StoreQuantInv s) (u : Nat) (c : String)
    {v : Option Holding} (hv : ∀ h, v = some h → 0 < h.amount) :
    StoreQuantInv (s.set u c v) := by
  intro u2 c2 h hl
  by_cases hc : u2 = u ∧ c2 = c
  · simp only [Store.set, if_pos hc] at hl
    exact hv _ hl
  · rw [Store.set_other _ _ _ _ _ _ hc] at hl
    exact hs _ _ _ hl

/-- Amended claim C3: after every operation (open, adjust, close) every
persisted holding has quantity > 0, unconditionally — each of the three
operations preserves the quantity half of the invariant for every
caller-supplied input, including any incremental price; and quantity > 0
together with average_cost > 0 is preserved by open, close, and by any
adjust whose incremental price is nonnegative. (As stated over every
caller-supplied input the claim fails: an adjust with delta > 0 may pass a
sufficiently negative incremental price, which `update_position` does not
validate — see `negative_cost_reachable`.) -/
theorem invariant_preservation :
    (∀ sess code bp amt fetch s, StoreInv s →
      StoreInv (add sess code bp amt fetch s).2) ∧
    (∀ sess code delta ap s, 0 ≤ ap → StoreInv s →
      StoreInv (update_position sess code delta ap s).2) ∧
    (∀ sess code s, StoreInv s → StoreInv (delete sess code s).2) ∧
    (∀ sess code bp amt fetch s, StoreQuantInv s →
      StoreQuantInv (add sess code bp amt fetch s).2) ∧
    (∀ sess code delta ap s, StoreQuantInv s →
      StoreQuantInv (update_position sess code delta ap s).2) ∧
    (∀ sess code s, StoreQuantInv s → StoreQuantInv (delete sess code s).2) := by
  refine ⟨?_, ?_, ?_, ?_, ?_, ?_⟩
  · intro sess code bp amt fetch s hs
    simp only [add]
    cases current_user sess with
    | none => exact hs
    | some uid =>
      by_cases hc : pyStrip code = ""
      · simp only [if_pos hc]
        exact hs
      · simp only [if_neg hc]
        by_cases hv : bp ≤ 0 ∨ amt ≤ 0
        · simp only [if_pos hv]
          exact hs
        · simp only [if_neg hv]
          push_neg at hv
          cases fetch (pyStrip code) with
          | none => exact hs
          | some rt =>
            cases s uid (pyStrip code) with
            | some _ => exact hs
            | none => exact StoreInv_set hs _ _ (fun h hh => by cases hh; exact ⟨hv.2, hv.1⟩)
  · intro sess code delta ap s hap hs
    simp only [update_position]
    cases current_user sess with
    | none => exact hs
    | some uid =>
      dsimp only
      cases hrow : s uid code with
      | none => exact hs
      | some row =>
        have hr := hs uid code row hrow
        dsimp only
        by_cases hz : row.amount + delta ≤ 0
        · simp only [if_pos hz]
          exact StoreInv_set hs _ _ (fun h hh => by simp at hh)
        · simp only [if_neg hz]
          push_neg at hz
          by_cases hd : 0 < delta
          · simp only [if_pos hd]
            refine StoreInv_set hs _ _ (fun h hh => ?_)
            cases hh
            refine ⟨hz, div_pos ?_ hz⟩
            have h1 : 0 < row.buy_price * row.amount := mul_pos hr.2 hr.1
            have h2 : 0 ≤ ap * delta := mul_nonneg hap hd.le
            linarith
          · simp only [if_neg hd]
            exact StoreInv_set hs _ _ (fun h hh => by cases hh; exact ⟨hz, hr.2⟩)
  · intro sess code s hs
    simp only [delete]
    cases current_user sess with
    | none => exact hs
    | some uid => exact StoreInv_set hs _ _ (fun h hh => by simp at hh)
  · intro sess code bp amt fetch s hs
    simp only [add]
    cases current_user sess with
    | none => exact hs
    | some uid =>
      by_cases hc : pyStrip code = ""
      · simp only [if_pos hc]
        exact hs
      · simp only [if_neg hc]
        by_cases hv : bp ≤ 0 ∨ amt ≤ 0
        · simp only [if_pos hv]
          exact hs
        · simp only [if_neg hv]
          push_neg at hv
          cases fetch (pyStrip code) with
          | none => exact hs
          | some rt =>
            cases s uid (pyStrip code) with
            | some _ => exact hs
            | none => exact StoreQuantInv_set hs _ _ (fun h hh => by cases hh; exact hv.2)
  · intro sess code delta ap s hs
    simp only [update_position]
    cases current_user sess with
    | none => exact hs
    | some uid =>
      dsimp only
      cases hrow : s uid code with
      | none => exact hs
      | some row =>
        dsimp only
        by_cases hz : row.amount + delta ≤ 0
        · simp only [if_pos hz]
          exact StoreQuantInv_set hs _ _ (fun h hh => by simp at hh)
        · simp only [if_neg hz]
          push_neg at hz
          exact StoreQuantInv_set hs _ _ (fun h hh => by cases hh; exact hz)
  · intro sess code s hs
    simp only [delete]
    cases current_user sess with
    | none => exact hs
    | some uid => exact StoreQuantInv_set hs _ _ (fun h hh => by simp at hh)

/-- Witness for C3 (amended): the full invariant holds after opening a fund
on the empty store, after adjusting it with a nonnegative incremental price,
and after closing it; and the quantity half survives an open, an adjust
with a negative incremental price, and a close performed on `badStore`, a
store in which the cost half is already broken. -/
theorem invariant_preservation_witness :
    StoreInv (add (some 1) "f1" 1 1 oneFundFeed emptyStore).2 ∧
    StoreInv (update_position (some 1) "f1" 1 1 demoStore).2 ∧
    StoreInv (delete (some 1) "f1" demoStore).2 ∧
    StoreQuantInv (add (some 2) "f1" 1 1 oneFundFeed badStore).2 ∧
    StoreQuantInv (update_position (some 1) "f1" 1 (-10) badStore).2 ∧
    StoreQuantInv (delete (some 1) "f1" badStore).2 :=
  ⟨invariant_preservation.1 (some 1) "f1" 1 1 oneFundFeed emptyStore
      (fun u c h hl => by simp [emptyStore] at hl),
   invariant_preservation.2.1 (some 1) "f1" 1 1 demoStore (by norm_num)
      (fun u c h hl => by
        by_cases hc : u = 1 ∧ c = "000001" <;> simp [demoStore, hc] at hl
        cases hl; constructor <;> norm_num),
   invariant_preservation.2.2.1 (some 1) "f1" demoStore
      (fun u c h hl => by
        by_cases hc : u = 1 ∧ c = "000001" <;> simp [demoStore, hc] at hl
        cases hl; constructor <;> norm_num),
   invariant_preservation.2.2.2.1 (some 2) "f1" 1 1 oneFundFeed badStore
      (fun u c h hl => by
        by_cases hc : u = 1 ∧ c = "f1" <;> simp [badStore, hc] at hl
        cases hl; norm_num),
   invariant_preservation.2.2.2.2.1 (some 1) "f1" 1 (-10) badStore
      (fun u c h hl => by
        by_cases hc : u = 1 ∧ c = "f1" <;> simp [badStore, hc] at hl
        cases hl; norm_num),
   invariant_preservation.2.2.2.2.2 (some 1) "f1" badStore
      (fun u c h hl => by
        by_cases hc : u = 1 ∧ c = "f1" <;> simp [badStore, hc] at hl
        cases hl; norm_num)⟩

/-- Counterexample to C3 as stated: starting from the empty store, a valid
open (price 1, amount 1) followed by an adjust with delta = 1 and
incremental price -10 persists the holding ⟨buy_price := -9/2, amount := 2⟩,
whose average cost is negative. -/
theorem negative_cost_reachable :
    ¬ StoreInv ((update_position (some 1) "f1" 1 (-10)
        ((add (some 1) "f1" 1 1 oneFundFeed emptyStore).2)).2) := by
  intro hInv
  have hl : ((update_position (some 1) "f1" 1 (-10)
      ((add (some 1) "f1" 1 1 oneFundFeed emptyStore).2)).2) 1 "f1"
      = some ⟨-9/2, 2⟩ := by
    simp [add, current_user, oneFundFeed, emptyStore, update_position, Store.set_self,
      show pyStrip "f1" = "f1" from rfl]
    norm_num [Store.set_self]
  have hneg := (hInv 1 "f1" ⟨-9/2, 2⟩ hl).2
  norm_num at hneg

/-! ### C5 -/

/-- Claim C5: a holding whose quote lookup fails is excluded from the
per-holding result list (`funds = rows.filterMap (mkFund fetch)`, and
`mkFund` is `none` exactly on quote-less rows) and from every aggregate:
the reported totals are the rounded sums over exactly the included rows,
with the total unrealized P&L the difference of the exact market-value and
cost-value sums; the request never aborts (the result is total). -/
theorem valuation_excludes_failed_quotes (fetch : String → Option Quote)
    (rows : List HRow) :
    (holdingsCalc fetch rows).funds = rows.filterMap (mkFund fetch) ∧
    (holdingsCalc fetch rows).total_asset =
      round2 (((included fetch rows).map (rowAsset fetch)).sum) ∧
    (holdingsCalc fetch rows).total_profit =
      round2 ((((included fetch rows).map (rowAsset fetch)).sum)
        - (((included fetch rows).map (rowCost fetch)).sum)) ∧
    (holdingsCalc fetch rows).today_profit =
      round2 (((included fetch rows).map (rowToday fetch)).sum) := by
  have hA := sum_map_included fetch (rowAsset fetch)
    (fun r h => by simp [rowAsset, h]) rows
  have hC := sum_map_included fetch (rowCost fetch)
    (fun r h => by simp [rowCost, h]) rows
  have hT := sum_map_included fetch (rowToday fetch)
    (fun r h => by simp [rowToday, h]) rows
  refine ⟨?_, ?_, ?_, ?_⟩ <;>
    simp only [holdingsCalc, holdings_foldl, hA, hC, hT, zero_add, List.nil_append]

/-! ### C9 -/

/-- Claim C9: the reported per-holding return percentage is the (rounded)
ratio `unrealized_pnl / cost_value * 100` when the cost value is positive
and is 0 when the cost value is ≤ 0; likewise the aggregate return
percentage against the total cost value. The zero-cost case is a defined
value, not an error. -/
theorem return_pct_zero_cost_policy (fetch : String → Option Quote)
    (rows : List HRow) :
    (∀ f ∈ (holdingsCalc fetch rows).funds,
      (0 < f.buy_price * f.amount →
        f.percent = round2 ((f.current * f.amount - f.buy_price * f.amount)
          / (f.buy_price * f.amount) * 100)) ∧
      (f.buy_price * f.amount ≤ 0 → f.percent = 0)) ∧
    (0 < ((included fetch rows).map (rowCost fetch)).sum →
      (holdingsCalc fetch rows).total_percent =
        round2 (((((included fetch rows).map (rowAsset fetch)).sum)
          - (((included fetch rows).map (rowCost fetch)).sum))
          / (((included fetch rows).map (rowCost fetch)).sum) * 100)) ∧
    (((included fetch rows).map (rowCost fetch)).sum ≤ 0 →
      (holdingsCalc fetch rows).total_percent = 0) := by
  have hA := sum_map_included fetch (rowAsset fetch)
    (fun r h => by simp [rowAsset, h]) rows
  have hC := sum_map_included fetch (rowCost fetch)
    (fun r h => by simp [rowCost, h]) rows
  have hfunds : (holdingsCalc fetch rows).funds = rows.filterMap (mkFund fetch) := by
    simp only [holdingsCalc, holdings_foldl, List.nil_append]
  have htot : (holdingsCalc fetch rows).total_percent =
      if 0 < ((included fetch rows).map (rowCost fetch)).sum
      then round2 (((((included fetch rows).map (rowAsset fetch)).sum)
        - (((included fetch rows).map (rowCost fetch)).sum))
        / (((included fetch rows).map (rowCost fetch)).sum) * 100)
      else 0 := by
    simp only [holdingsCalc, holdings_foldl, zero_add, hA, hC]
  refine ⟨?_, ?_, ?_⟩
  · intro f hf
    rw [hfunds] at hf
    rcases List.mem_filterMap.mp hf with ⟨r, _, hmk⟩
    revert hmk
    cases hq : fetch r.code with
    | none => simp [mkFund, hq]
    | some rt =>
      intro hmk
      simp only [mkFund, hq, Option.some.injEq] at hmk
      cases hmk
      dsimp only
      constructor
      · intro hpos
        rw [if_pos hpos]
      · intro hle
        rw [if_neg (not_lt.mpr hle)]
  · intro hpos
    rw [htot, if_pos hpos]
  · intro hle
    rw [htot, if_neg (not_lt.mpr hle)]

/-- A one-fund portfolio used to instantiate the valuation claims: user
holds 100 units of "a" at cost 2, quoted at 3 with day change 0. -/
def demoRows : List HRow := [⟨"a", 2, 100⟩]

/-- The quote feed for `demoRows`: every code resolves to price 3, day
change 0. -/
def demoFeed : String → Option Quote := fun _ => some ⟨"W", 3, 0⟩

/-- The fund view the valuation of `demoRows` under `demoFeed` produces. -/
def demoView : FundView :=
  { code := "a", name := "W", current := 3, buy_price := 2, amount := 100,
    profit := 100, percent := 50, holding := 300, gszzl := 0, today_profit := 0 }

/-- Witness for C9 on the one-fund demo portfolio: its cost value 200 is
positive, and both the per-holding and the aggregate percentage equations
hold there. -/
theorem return_pct_zero_cost_policy_witness :
    demoView.percent = round2 ((demoView.current * demoView.amount
      - demoView.buy_price * demoView.amount)
      / (demoView.buy_price * demoView.amount) * 100) ∧
    (holdingsCalc demoFeed demoRows).total_percent =
      round2 (((((included demoFeed demoRows).map (rowAsset demoFeed)).sum)
        - (((included demoFeed demoRows).map (rowCost demoFeed)).sum))
        / (((included demoFeed demoRows).map (rowCost demoFeed)).sum) * 100) :=
  ⟨((return_pct_zero_cost_policy demoFeed demoRows).1 demoView
      (by norm_num [holdingsCalc, holdingsStep, demoFeed, demoRows, demoView,
        round2, round_eq])).1
      (by norm_num [demoView]),
   (return_pct_zero_cost_policy demoFeed demoRows).2.1
      (by norm_num [included, rowCost, demoFeed, demoRows])⟩

/-! ### C2 -/

/-- Amended claim C2: the aggregates `total_asset` and `total_profit` are
computed from exact (unrounded) sums and rounded once at output, but each
per-holding today P&L is rounded to 2 decimals when it is computed
(`rowToday = round2 ∘ rowTodayExact`), and the portfolio total today P&L
is the rounded sum of these already-rounded values — not the rounded exact
sum the claim states (see `today_pnl_double_rounding`). -/
theorem today_pnl_rounded_before_aggregation (fetch : String → Option Quote)
    (rows : List HRow) :
    (∀ r, rowToday fetch r = round2 (rowTodayExact fetch r)) ∧
    (holdingsCalc fetch rows).today_profit =
      round2 (((included fetch rows).map (rowToday fetch)).sum) ∧
    (holdingsCalc fetch rows).total_asset =
      round2 (((included fetch rows).map (rowAsset fetch)).sum) ∧
    (holdingsCalc fetch rows).total_profit =
      round2 ((((included fetch rows).map (rowAsset fetch)).sum)
        - (((included fetch rows).map (rowCost fetch)).sum)) := by
  have hA := sum_map_included fetch (rowAsset fetch)
    (fun r h => by simp [rowAsset, h]) rows
  have hC := sum_map_included fetch (rowCost fetch)
    (fun r h => by simp [rowCost, h]) rows
  have hT := sum_map_included fetch (rowToday fetch)
    (fun r h => by simp [rowToday, h]) rows
  refine ⟨fun r => ?_, ?_⟩
  · cases h : fetch r.code with
    | none => simp [rowToday, rowTodayExact, h, round2]
    | some rt => simp [rowToday, rowTodayExact, h]
  · refine ⟨?_, ?_, ?_⟩ <;>
      simp only [holdingsCalc, holdings_foldl, hA, hC, hT, zero_add]

/-- Two identical one-unit holdings, each with exact today P&L 0.004: the
per-holding rounding turns each into 0.00 before the total is taken. -/
def twoRows : List HRow := [⟨"a", 1, 1⟩, ⟨"b", 1, 1⟩]

/-- The quote feed for `twoRows`: price 0.8, day change 0.5%, so each
holding's exact today P&L is 0.8 * 0.5 / 100 = 0.004. -/
def twoFundFeed : String → Option Quote := fun _ => some ⟨"x", 4/5, 1/2⟩

/-- Counterexample to C2 as stated: on `twoRows` the code reports total
today P&L 0 (it sums the per-holding values already rounded to 0.00),
while the exact sum 0.008 rounded once at output is 0.01. -/
theorem today_pnl_double_rounding :
    (holdingsCalc twoFundFeed twoRows).today_profit = 0 ∧
    round2 (((included twoFundFeed twoRows).map (rowTodayExact twoFundFeed)).sum)
      = 1/100 ∧
    (0 : ℚ) ≠ 1/100 := by
  refine ⟨?_, ?_, by norm_num⟩
  · norm_num [holdingsCalc, holdingsStep, twoFundFeed, twoRows, round2, round_eq]
  · norm_num [included, rowTodayExact, twoFundFeed, twoRows, round2, round_eq]

end FundManager
